import Mathlib

/-!
Verification of the process-supervision layer of the pluggable memory
server: the persisted PID registry (`src/launcher/pid.ts` and the
`PIDListManager` class), the health probe, and the launcher state machine
(`src/launcher.ts` and `src/launcher/index.ts`).

The registry's backing file, the JSON values it can hold, and the two
generations of reader/writer pairs are embedded below; file-system and
process effects are made explicit (the socket file's presence is a `Bool`
threaded through the operations, process liveness is an oracle
`Int → Bool` recording for which ids `process.kill(pid, 0)` succeeds).
-/

/-- JSON values as produced by `JSON.parse`.  PID values are operating-system
process identifiers, which are integers, so JSON numbers are modelled as
`Int` (the claims under verification only quantify over integer arrays). -/
inductive Json where
  | num (n : Int)
  | str (s : String)
  | bool (b : Bool)
  | null
  | arr (elems : List Json)
  | obj (fields : List (String × Json))

/-- Contents of the registry's backing file as seen by the readers.  Every
possible state of the file falls in exactly one case: the file is absent
(`existsSync` reports false), present but empty or whitespace-only (both
readers check `!data || data.trim() === ""`), present but not parseable
JSON (`JSON.parse` throws a `SyntaxError`; the constructor carries the raw
text, e.g. the single character `"\x7b"`), or present and parsed to a JSON
value. -/
inductive FileContent where
  | missing
  | blank
  | malformed (raw : String)
  | parsed (j : Json)

/-- Errors that escape the registry readers.  Both readers re-throw every
caught error whose message does not contain "ENOENT"; the two kinds that
arise are a `SyntaxError` thrown by `JSON.parse` and a `ZodError` thrown by
schema validation (`PIDListManager.read` only; `readPidList` catches the
latter locally). -/
inductive ReadErr where
  | syntaxError
  | zodError
deriving DecidableEq

/-- Conversion applied by `z.array(z.number())`: succeeds exactly when every
element of the array is a number, returning the numbers. -/
def jsonNums : List Json → Option (List Int)
  | [] => some []
  | .num n :: rest => (jsonNums rest).map (n :: ·)
  | _ => none

/-- Property access `jsonData.pids` after `JSON.parse`.  `JSON.parse` keeps
only the last occurrence of a duplicated object key, so the field list is
searched from the right. -/
def lookupField (fields : List (String × Json)) (key : String) : Option Json :=
  (fields.reverse.find? (fun f => f.1 == key)).map (·.2)

/-- Validation performed by `PidListSchema.parse` / `fileSchema.parse`, the
Zod schema `z.object({ pids: z.array(z.number()) })`: the value must be an
object, its `pids` field must be present and an array of numbers; other
fields are stripped and ignored. -/
def zodParsePids : Json → Option (List Int)
  | .obj fields =>
    match lookupField fields "pids" with
    | some (.arr xs) => jsonNums xs
    | _ => none
  | _ => none

/-- Reader `readPidList` from `src/launcher/pid.ts`.  A missing file and an
empty or whitespace-only file yield the empty list.  Unparseable content
makes `JSON.parse` throw; the catch clause re-throws it because the
`SyntaxError` message does not contain "ENOENT".  A parsed array is
returned as-is (legacy encoding, unvalidated); any other parsed value goes
through the Zod schema inside a local try/catch whose catch logs and
returns the empty list. -/
def readPidList : FileContent → Except ReadErr (List Json)
  | .missing => .ok []
  | .blank => .ok []
  | .malformed _ => .error .syntaxError
  | .parsed j =>
    match j with
    | .arr xs => .ok xs
    | _ =>
      match zodParsePids j with
      | some ps => .ok (ps.map Json.num)
      | none => .ok []

/-- Writer `writePidList` from `src/launcher/pid.ts`: stores
`JSON.stringify({ pids })`, which parses back to a one-field object holding
the array. -/
def writePidList (pids : List Json) : FileContent :=
  .parsed (.obj [("pids", .arr pids)])

/-- Strict equality `j === n` between a JSON value and a number, as used by
`Array.prototype.includes(process.pid)` and by the filter
`pid !== process.pid`: true exactly when `j` is the number `n`. -/
def Json.eqNum (j : Json) (n : Int) : Bool :=
  match j with
  | .num m => m == n
  | _ => false

/-- Function `isPidActive` from `src/launcher/pid.ts`: wraps
`process.kill(pid, 0)` in try/catch, returning true when the signal is
delivered and false when the call throws, as it does for a process id that
does not exist; the error never propagates.  The `alive` oracle records the
outcome of the signal for each id. -/
def isPidActive (alive : Int → Bool) (pid : Int) : Bool := alive pid

/-- Liveness test applied elementwise by `removePid`'s second filter.  On a
number the try/catch around `process.kill(pid, 0)` yields the oracle's
verdict; on a non-number element `process.kill` throws
`ERR_INVALID_ARG_TYPE`, which the catch also turns into false. -/
def isPidActiveJson (alive : Int → Bool) (j : Json) : Bool :=
  match j with
  | .num n => isPidActive alive n
  | _ => false

/-- Function `addPid` from `src/launcher/pid.ts`: reads the list, and only
when the caller's pid is absent appends it and writes the file back.
Returns the resulting file content together with whether `writePidList` was
invoked. -/
def addPid (self : Int) (c : FileContent) : Except ReadErr (FileContent × Bool) :=
  (readPidList c).map fun pids =>
    if pids.any (fun j => j.eqNum self) then (c, false)
    else (writePidList (pids ++ [Json.num self]), true)

/-- Observable result of `removePid`: the written list, the resulting file
content, and whether the socket file still exists afterwards. -/
structure RemoveResult where
  pids : List Json
  content : FileContent
  socketAfter : Bool

/-- Function `removePid` from `src/launcher/pid.ts`: reads the list, drops
the caller's own pid, drops every remaining id whose process is not alive,
unlinks the socket file when the result is empty and the file exists
(`pids.length === 0 && existsSync(socketPath)`), and writes the result
back.  `sock` is whether the socket file exists before the call. -/
def removePid (alive : Int → Bool) (self : Int) (c : FileContent) (sock : Bool) :
    Except ReadErr RemoveResult :=
  (readPidList c).map fun pids0 =>
    let afterSelf := pids0.filter (fun j => !(j.eqNum self))
    let afterLive := afterSelf.filter (isPidActiveJson alive)
    { pids := afterLive
      content := writePidList afterLive
      socketAfter := if afterLive.length == 0 && sock then false else sock }

namespace PIDListManager

/-- Method `PIDListManager.read`.  Unlike `readPidList` there is no
`Array.isArray` branch: every parsed value goes straight to
`fileSchema.parse`, and both a `SyntaxError` from `JSON.parse` and a
`ZodError` from the schema are re-thrown by the catch clause because their
messages do not contain "ENOENT". -/
def read : FileContent → Except ReadErr (List Int)
  | .missing => .ok []
  | .blank => .ok []
  | .malformed _ => .error .syntaxError
  | .parsed j =>
    match zodParsePids j with
    | some ps => .ok ps
    | none => .error .zodError

/-- Method `PIDListManager.write`: stores `JSON.stringify({ pids })`. -/
def write (pids : List Int) : FileContent :=
  .parsed (.obj [("pids", .arr (pids.map Json.num))])

/-- Effective behaviour of the liveness filter inside
`PIDListManager.removePid`.  The source passes the method itself to the
filter — `.filter(this.isPidActive)` — and `Array.prototype.filter` invokes
its callback with `this` equal to `undefined` (class bodies are strict-mode
code and no `thisArg` is supplied), so the body `this.pidManager.kill(pid, 0)`
throws a `TypeError` on the property access `this.pidManager` before any
signal is sent; the method's own try/catch converts the throw into `false`.
The filter therefore rejects every element regardless of the actual process
state.  The repository's own unit test for `removePid` expects live foreign
pids to survive the filter, which this behaviour contradicts; see claim C2. -/
def isPidActiveUnbound (_pid : Int) : Bool := false

/-- Observable result of `PIDListManager.removePid`: the written list, the
resulting file content, and whether the `onNoActivePids` callback (wired to
socket-file deletion by the launcher) was invoked. -/
structure RemoveOut where
  pids : List Int
  content : FileContent
  calledOnNoActivePids : Bool

/-- Method `PIDListManager.removePid`: reads the list, drops the caller's
own pid, applies the (unbound) liveness filter, invokes `onNoActivePids`
when the remaining list is empty, and writes the result back. -/
def removePid (self : Int) (c : FileContent) : Except ReadErr RemoveOut :=
  (read c).map fun pids0 =>
    let active := (pids0.filter (fun p => p != self)).filter isPidActiveUnbound
    { pids := active
      content := write active
      calledOnNoActivePids := active.length == 0 }

/-- Method `PIDListManager.addPid`: reads the list, and only when the
caller's pid is absent appends it and writes the file back.  Returns the
resulting file content together with whether `write` was invoked. -/
def addPid (self : Int) (c : FileContent) : Except ReadErr (FileContent × Bool) :=
  (read c).map fun pids =>
    if pids.contains self then (c, false)
    else (write (pids ++ [self]), true)

end PIDListManager

/-- Modelled from the spec: `remove(selfId, isAlive)` "reads the set, removes
`selfId` unconditionally, then removes every remaining id for which
`isAlive(id)` reports false".  Stated only to exhibit the divergence of
`PIDListManager.removePid` from the specified behaviour (claim C2); the
operations above are translated from the source. -/
def removeSpec (isAlive : Int → Bool) (selfId : Int) (ps : List Int) : List Int :=
  (ps.filter (fun p => p != selfId)).filter isAlive

/-- Outcome of one liveness request as observed by the caller of
`healthCheckClient.healthcheck.query()`: either the transport or the
request fails (connection error, malformed response, non-success result —
all surfaced as a rejected promise), or a result value is delivered. -/
inductive ProbeOutcome where
  | transportError
  | response (r : String)

/-- Function `checkDBServerHealth` from `src/launcher/index.ts`:
`healthCheckClient.healthcheck.query().then((r) => r === "ok").catch(() => false)`.
Any rejection collapses to false; a delivered result is healthy exactly
when it is the literal "ok". -/
def checkDBServerHealth : ProbeOutcome → Bool
  | .transportError => false
  | .response r => r == "ok"

/-- Handler `appRouter.healthcheck` from `src/db-server/handlers.ts`: a
query taking no input and returning the literal "ok". -/
def healthcheckHandler : String := "ok"

/-- Retry budget of the `retryLink` wired into the current launcher's
health-check client: `retry: ({ attempts }) => attempts <= 3`. -/
def retryLinkAttemptBound : Nat := 3

/-- Retry delay of the `retryLink`: `retryDelayMs: () => 500`. -/
def retryLinkDelayMs : Nat := 500

/-- Decision taken by `startDBServer` in `src/launcher/index.ts` together
with the backend-kill wiring of the launcher body. -/
structure StartDBServerOutcome where
  /-- a backend process was spawned (`start()` was reached) -/
  backendSpawned : Bool
  /-- `startDBServer` returned a handle (`dbProcess` is non-null in the
  launcher body), i.e. this launcher owns the backend -/
  ownedHandle : Bool
  /-- number of `checkDBServerHealth()` calls made to decide between reuse
  and spawn (the call at the top of `startDBServer`; the later probe inside
  `waitUp` is counted separately) -/
  reuseProbes : Nat
  /-- the pre-existing socket file was deleted before spawning
  (`beforeSpawn: async () => deleteSocketFile()`) -/
  staleFileDeleted : Bool
deriving DecidableEq

/-- Function `startDBServer` from `src/launcher/index.ts` (lines 40–83).
When no socket file exists, `start()` runs immediately: no reuse probe is
issued and `deleteSocketFile` finds nothing to unlink.  When the file
exists, exactly one reuse probe runs; a healthy answer returns `null`
(nothing spawned, nothing owned), an unhealthy answer deletes the stale
socket file in `beforeSpawn` and spawns a backend. -/
def startDBServer (socketFileExists : Bool) (probeHealthy : Bool) : StartDBServerOutcome :=
  if socketFileExists = false then
    { backendSpawned := true, ownedHandle := true, reuseProbes := 0, staleFileDeleted := false }
  else if probeHealthy then
    { backendSpawned := false, ownedHandle := false, reuseProbes := 1, staleFileDeleted := false }
  else
    { backendSpawned := true, ownedHandle := true, reuseProbes := 1, staleFileDeleted := true }

/-- Backend-kill wiring of the launcher body: `mcpProcess.on("exit", async
() => { await dbProcess?.kill(); })` — the backend is killed at teardown
exactly when this launcher holds a handle to it. -/
def killsBackendOnWorkerExit (o : StartDBServerOutcome) : Bool := o.ownedHandle

/-- Attempt budget of the legacy polling loop, `waitForDbServer`'s default
parameter `maxAttempts: number = 10` (the same literal 10 appears in the
intermediate launcher's `waitUp`). -/
def legacyMaxAttempts : Nat := 10

/-- Sleep between attempts of the legacy polling loop, default parameter
`interval: number = 500`. -/
def legacyIntervalMs : Nat := 500

/-- Polling loop body shared by `waitForDbServer` (`src/launcher.ts`) and
the intermediate `waitUp` (`src/launcher/index.ts`, second version):
`for (attempt = 0; attempt < maxAttempts; attempt++) { if (healthy) return
true; sleep(interval) }`.  `probe i` is the health verdict of attempt `i`;
the result is the number of health checks performed and whether one of
them succeeded. -/
def waitFrom (probe : Nat → Bool) (attempt : Nat) : Nat → Nat × Bool
  | 0 => (0, false)
  | fuel + 1 =>
    if probe attempt then (1, true)
    else
      let rest := waitFrom probe (attempt + 1) fuel
      (rest.1 + 1, rest.2)

/-- Function `waitForDbServer` from `src/launcher.ts` at its default
parameters. -/
def waitForDbServer (probe : Nat → Bool) : Nat × Bool :=
  waitFrom probe 0 legacyMaxAttempts

/-- Effects a launcher performs when a freshly spawned backend fails its
health wait. -/
structure ExhaustionEffects where
  /-- the spawned backend process was killed -/
  backendKilled : Bool
  /-- `process.exit` was called with this code -/
  exitCode : Option Nat
  /-- the launcher's own pid was removed from the PID registry -/
  deregistered : Bool
deriving DecidableEq

/-- Exhaustion path of the legacy launcher (`src/launcher.ts`, `main`):
after `waitForDbServer` returns false it logs, kills the spawned backend
and calls `process.exit(1)`.  That launcher maintains no PID registry
(neither `addPid` nor `removePid` is called anywhere in the file), so
nothing is deregistered. -/
def legacyOnExhaustion : ExhaustionEffects :=
  { backendKilled := true, exitCode := some 1, deregistered := false }

/-- Method `waitUp` of the intermediate launcher (`src/launcher/index.ts`,
second version): the 10 × 500 ms polling loop followed, on exhaustion, by
`kill()` — which kills the backend process and calls
`removePid(SOCKET_PATH)` — with no `process.exit`; the launcher body then
continues to spawn the worker.  Returns the number of health checks
performed and the effects. -/
def midWaitUp (probe : Nat → Bool) : Nat × ExhaustionEffects :=
  let r := waitForDbServer probe
  if r.2 then (r.1, { backendKilled := false, exitCode := none, deregistered := false })
  else (r.1, { backendKilled := true, exitCode := none, deregistered := true })

/-- Method `waitUp` of the current launcher (`src/launcher/index.ts`, first
version, lines 61–68): a single `checkDBServerHealth()` call; when it is
unhealthy, `kill()` kills the backend process and calls
`pidListManager.removePid()`.  There is no loop and no `process.exit`.
Returns the number of health checks performed and the effects. -/
def currentWaitUp (healthy : Bool) : Nat × ExhaustionEffects :=
  if healthy then (1, { backendKilled := false, exitCode := none, deregistered := false })
  else (1, { backendKilled := true, exitCode := none, deregistered := true })

/-- Events delivered to the current launcher after startup: the two handled
termination signals and the worker process's `exit` event. -/
inductive LEvent where
  | sigint
  | sigterm
  | workerExit
deriving DecidableEq

/-- Per-instance launcher state observed by the event handlers of
`src/launcher/index.ts` (first version, lines 95–104). -/
structure LauncherState where
  /-- number of times the worker-exit handler — the teardown sequence
  `await dbProcess?.kill()` (backend kill plus pid deregistration when the
  backend is owned) — has run -/
  teardownRuns : Nat
  /-- a kill signal has been sent to the worker process -/
  workerKillSent : Bool
  /-- an exception escaped an event handler.  No transition sets this:
  `ChildProcess.kill` on an already-exited process is a no-op returning
  false rather than throwing, and optional chaining makes the backend kill
  a no-op when no handle is held -/
  threw : Bool

/-- Initial state right after the launcher wires its handlers. -/
def initLauncherState : LauncherState :=
  { teardownRuns := 0, workerKillSent := false, threw := false }

/-- One event dispatch.  `SIGINT` and `SIGTERM` are both wired to
`cleanup = () => { mcpProcess.kill(); }`, which only signals the worker and
never runs the teardown sequence; the worker's `exit` event runs the
teardown handler. -/
def stepEvent (s : LauncherState) : LEvent → LauncherState
  | .sigint => { s with workerKillSent := true }
  | .sigterm => { s with workerKillSent := true }
  | .workerExit => { s with teardownRuns := s.teardownRuns + 1 }

/-- Dispatch of a whole event trace, in order. -/
def runEvents (s : LauncherState) (tr : List LEvent) : LauncherState :=
  tr.foldl stepEvent s

/-- Number of worker-exit events in a trace.  Node.js emits a child
process's `exit` event at most once, so every trace the launcher can
actually observe satisfies `countWorkerExit tr ≤ 1`. -/
def countWorkerExit : List LEvent → Nat
  | [] => 0
  | .workerExit :: rest => countWorkerExit rest + 1
  | _ :: rest => countWorkerExit rest

/-- A first sanity check that the embedding computes: reading back a written
file recovers the list. -/
theorem read_write_sanity : PIDListManager.read (PIDListManager.write [3, 4]) = .ok [3, 4] := rfl

theorem jsonNums_map_num (ps : List Int) : jsonNums (ps.map Json.num) = some ps := by
  induction ps with
  | nil => rfl
  | cons p rest ih => simp [jsonNums, ih]

theorem zodParsePids_write (ps : List Int) :
    zodParsePids (Json.obj [("pids", Json.arr (ps.map Json.num))]) = some ps := by
  simp [zodParsePids, lookupField, List.find?, jsonNums_map_num]

theorem classRead_write (ps : List Int) :
    PIDListManager.read (PIDListManager.write ps) = .ok ps := by
  simp [PIDListManager.read, PIDListManager.write, zodParsePids_write]

theorem readPidList_write_nums (ps : List Int) :
    readPidList (writePidList (ps.map Json.num)) = .ok (ps.map Json.num) := by
  simp [readPidList, writePidList, zodParsePids_write]

/-- Claim C1 is false on the code: a backing file whose content exists, is
non-empty and is not parseable JSON — here the literal text `"\x7b"` — makes
both `readPidList` and `PIDListManager.read` throw the `SyntaxError` from
`JSON.parse` (re-thrown because its message does not contain "ENOENT")
instead of returning the empty list. -/
theorem corrupt_file_read_raises :
    readPidList (FileContent.malformed "\x7b") = .error .syntaxError
  ∧ PIDListManager.read (FileContent.malformed "\x7b") = .error .syntaxError
  ∧ (Except.error ReadErr.syntaxError : Except ReadErr (List Json)) ≠ .ok []
  ∧ (Except.error ReadErr.syntaxError : Except ReadErr (List Int)) ≠ .ok [] := by
  refine ⟨rfl, rfl, by simp, by simp⟩

/-- Claim C1, corrected: reading the registry returns the empty list for a
missing backing file and for an empty or whitespace-only one, but content
that is not parseable JSON makes the read (and hence any add or remove,
which read first) throw the parse error.  A successfully parsed non-array
value that fails schema validation yields the empty list in `readPidList`
(the validation error is caught locally and logged) but is re-thrown by
`PIDListManager.read`. -/
theorem read_error_handling (s : String) (j : Json)
    (hnotarr : ∀ xs, j ≠ Json.arr xs) (hzod : zodParsePids j = none) :
    readPidList .missing = .ok []
  ∧ readPidList .blank = .ok []
  ∧ PIDListManager.read .missing = .ok []
  ∧ PIDListManager.read .blank = .ok []
  ∧ readPidList (.malformed s) = .error .syntaxError
  ∧ PIDListManager.read (.malformed s) = .error .syntaxError
  ∧ readPidList (.parsed j) = .ok []
  ∧ PIDListManager.read (.parsed j) = .error .zodError := by
  refine ⟨rfl, rfl, rfl, rfl, rfl, rfl, ?_, ?_⟩
  · cases j with
    | arr xs => exact absurd rfl (hnotarr xs)
    | num n => simp [readPidList, hzod]
    | str t => simp [readPidList, hzod]
    | bool b => simp [readPidList, hzod]
    | null => simp [readPidList, hzod]
    | obj fields => simp [readPidList, hzod]
  · simp [PIDListManager.read, hzod]

theorem read_error_handling_witness :
    readPidList (.malformed "\x7b") = .error .syntaxError
  ∧ PIDListManager.read (.parsed (Json.obj [])) = .error .zodError := by
  have h := read_error_handling "\x7b" (Json.obj []) (fun xs hx => by cases hx) rfl
  exact ⟨h.2.2.2.2.1, h.2.2.2.2.2.2.2⟩

/-- Claim C3 is false on the current code: a backing file holding the legacy
raw-array encoding `[1234,5678]` is rejected by `PIDListManager.read` — the
Zod schema `z.object({...})` throws on an array, and the catch clause
re-throws the `ZodError` — rather than returning the array of integers. -/
theorem legacy_array_read_raises :
    PIDListManager.read (.parsed (Json.arr [Json.num 1234, Json.num 5678])) = .error .zodError
  ∧ (Except.error ReadErr.zodError : Except ReadErr (List Int)) ≠ .ok [1234, 5678] := by
  refine ⟨rfl, by simp⟩

/-- Claim C3, corrected: the legacy launcher's `readPidList` accepts the raw
array encoding and returns exactly the stored integers, the same result it
gives for the equivalent object encoding; the current `PIDListManager.read`
accepts only the object encoding and throws a validation error on a
raw-array file. -/
theorem legacy_array_split_behaviour (ps : List Int) :
    readPidList (.parsed (Json.arr (ps.map Json.num))) = .ok (ps.map Json.num)
  ∧ readPidList (PIDListManager.write ps) = .ok (ps.map Json.num)
  ∧ PIDListManager.read (.parsed (Json.arr (ps.map Json.num))) = .error .zodError
  ∧ PIDListManager.read (PIDListManager.write ps) = .ok ps := by
  refine ⟨rfl, ?_, rfl, classRead_write ps⟩
  show readPidList (writePidList (ps.map Json.num)) = .ok (ps.map Json.num)
  exact readPidList_write_nums ps

theorem legacy_array_split_witness :
    readPidList (.parsed (Json.arr [Json.num 7])) = .ok [Json.num 7]
  ∧ PIDListManager.read (PIDListManager.write [7]) = .ok [7] :=
  ⟨(legacy_array_split_behaviour [7]).1, (legacy_array_split_behaviour [7]).2.2.2⟩

/-- Claim C2 states that `remove` deletes only the caller's id and the ids
of dead processes, never an id belonging to a still-live foreign process.
The code contradicts this (and its own unit test "should filter out
inactive PIDs", which expects the live pid 8888 to survive): with the
registry holding pids 9999, 12345, 8888, caller pid 12345, process 9999
dead and process 8888 alive, `PIDListManager.removePid` writes the empty
list — dropping the live foreign pid 8888 — and fires `onNoActivePids`,
because its liveness filter receives the method unbound and classifies
every process as dead (see `PIDListManager.isPidActiveUnbound`).  The
specified behaviour `removeSpec`, and the older standalone `removePid` from
`src/launcher/pid.ts`, both keep [8888]. -/
theorem removePid_drops_live_foreign_pids :
    PIDListManager.removePid 12345 (PIDListManager.write [9999, 12345, 8888])
      = .ok { pids := [], content := PIDListManager.write [], calledOnNoActivePids := true }
  ∧ removeSpec (fun p => p == 12345 || p == 8888) 12345 [9999, 12345, 8888] = [8888]
  ∧ (removePid (fun p => p == 12345 || p == 8888) 12345
        (writePidList [Json.num 9999, Json.num 12345, Json.num 8888]) true).map (·.pids)
      = .ok [Json.num 8888]
  ∧ ([] : List Int) ≠ [8888] := by
  refine ⟨rfl, rfl, rfl, by simp⟩

/-- Claim C6: `removePid` deletes the endpoint (socket) file exactly when
the PID list resulting from the removal and liveness filtering is empty,
and leaves it untouched while the resulting list is non-empty; in the
class version the `onNoActivePids` callback (wired to socket deletion) is
invoked exactly when the resulting list is empty. -/
theorem socket_removed_iff_empty (alive : Int → Bool) (self : Int) (c : FileContent)
    (sock : Bool) (out : RemoveResult)
    (h : removePid alive self c sock = .ok out)
    (self2 : Int) (c2 : FileContent) (out2 : PIDListManager.RemoveOut)
    (h2 : PIDListManager.removePid self2 c2 = .ok out2) :
    (sock = true → (out.socketAfter = false ↔ out.pids = []))
  ∧ (out.pids ≠ [] → out.socketAfter = sock)
  ∧ (out2.calledOnNoActivePids = true ↔ out2.pids = []) := by
  have hmain : (sock = true → (out.socketAfter = false ↔ out.pids = []))
      ∧ (out.pids ≠ [] → out.socketAfter = sock) := by
    cases hr : readPidList c with
    | error e => rw [removePid, hr] at h; cases h
    | ok pids0 =>
      rw [removePid, hr] at h
      simp only [Except.map] at h
      cases h
      cases hl : (pids0.filter (fun j => !(j.eqNum self))).filter (isPidActiveJson alive) with
      | nil => simp [hl]
      | cons x xs => simp [hl]
  refine ⟨hmain.1, hmain.2, ?_⟩
  cases hr : PIDListManager.read c2 with
  | error e => rw [PIDListManager.removePid, hr] at h2; cases h2
  | ok pids0 =>
    rw [PIDListManager.removePid, hr] at h2
    simp only [Except.map] at h2
    cases h2
    cases hl : (pids0.filter (fun p => p != self2)).filter PIDListManager.isPidActiveUnbound with
    | nil => simp [hl]
    | cons x xs => simp [hl]

theorem socket_removed_iff_empty_witness :
    ((false : Bool) = false ↔ ([] : List Json) = []) :=
  (socket_removed_iff_empty (fun _ => false) 1
    (writePidList [Json.num 1, Json.num 9999]) true
    ⟨[], writePidList [], false⟩
    rfl 1 (PIDListManager.write [1])
    ⟨[], PIDListManager.write [], true⟩
    rfl).1 rfl

/-- Claim C7: `addPid` is idempotent.  When the caller's id is already
stored, no write happens and the file is unchanged; otherwise the file is
rewritten with the id appended; and starting from a duplicate-free stored
list, adding the same id twice leaves a list containing it exactly once
(the second call performs no write).  Stated for `PIDListManager.addPid`
and, in the last two conjuncts, for the standalone `addPid` of
`src/launcher/pid.ts`. -/
theorem addPid_idempotent (self : Int) (ps : List Int) (hdup : ps.count self ≤ 1) :
    (ps.contains self = true →
      PIDListManager.addPid self (PIDListManager.write ps) = .ok (PIDListManager.write ps, false))
  ∧ (ps.contains self = false →
      PIDListManager.addPid self (PIDListManager.write ps)
        = .ok (PIDListManager.write (ps ++ [self]), true))
  ∧ (∃ c1 w1 c2 w2 qs,
      PIDListManager.addPid self (PIDListManager.write ps) = .ok (c1, w1)
      ∧ PIDListManager.addPid self c1 = .ok (c2, w2)
      ∧ w2 = false ∧ c2 = c1
      ∧ PIDListManager.read c2 = .ok qs ∧ qs.count self = 1)
  ∧ (ps.contains self = true →
      addPid self (writePidList (ps.map Json.num)) = .ok (writePidList (ps.map Json.num), false))
  ∧ (ps.contains self = false →
      addPid self (writePidList (ps.map Json.num))
        = .ok (writePidList (ps.map Json.num ++ [Json.num self]), true)) := by
  have hread := classRead_write ps
  refine ⟨?_, ?_, ?_, ?_, ?_⟩
  · intro hc
    have hmem : self ∈ ps := by simpa using hc
    simp [PIDListManager.addPid, hread, Except.map, hmem]
  · intro hc
    have hnmem : self ∉ ps := by simpa using hc
    simp [PIDListManager.addPid, hread, Except.map, hnmem]
  · cases hc : ps.contains self with
    | true =>
      have hmem : self ∈ ps := by simpa using hc
      have hcount1 : ps.count self = 1 := by
        have := List.count_pos_iff.mpr hmem
        omega
      refine ⟨PIDListManager.write ps, false, PIDListManager.write ps, false, ps,
        ?_, ?_, rfl, rfl, hread, hcount1⟩
      · simp [PIDListManager.addPid, hread, Except.map, hmem]
      · simp [PIDListManager.addPid, hread, Except.map, hmem]
    | false =>
      have hnmem : self ∉ ps := by simpa using hc
      have hcount1 : (ps ++ [self]).count self = 1 := by
        rw [List.count_append, List.count_eq_zero.mpr hnmem]
        simp
      have hmem2 : self ∈ ps ++ [self] := by simp
      refine ⟨PIDListManager.write (ps ++ [self]), true,
        PIDListManager.write (ps ++ [self]), false, ps ++ [self],
        ?_, ?_, rfl, rfl, classRead_write (ps ++ [self]), hcount1⟩
      · simp [PIDListManager.addPid, hread, Except.map, hnmem]
      · simp [PIDListManager.addPid, classRead_write (ps ++ [self]), Except.map, hmem2]
  · intro hc
    have hmem : self ∈ ps := by simpa using hc
    simp [addPid, readPidList_write_nums, Except.map]
    exact ⟨self, hmem, by simp [Json.eqNum]⟩
  · intro hc
    have hnmem : self ∉ ps := by simpa using hc
    simp [addPid, readPidList_write_nums, Except.map]
    intro x hxmem
    have hne : x ≠ self := fun hxe => hnmem (hxe ▸ hxmem)
    simp [Json.eqNum, hne]

theorem addPid_idempotent_witness :
    PIDListManager.addPid 5 (PIDListManager.write [1]) = .ok (PIDListManager.write [1, 5], true) := by
  have h := (addPid_idempotent 5 [1] (by decide)).2.1 (by decide)
  simpa using h

/-- Claim C4 is false as stated: the health wait it describes — up to
`maxAttempts = 10` probes and, on exhaustion, backend kill plus registry
deregistration plus `process.exit(1)` — is not implemented by any launcher
generation.  The current launcher's `waitUp` performs exactly one health
check (not 10) and never calls `process.exit`; the intermediate `waitUp`
does loop 10 times but never calls `process.exit`; and the legacy launcher
exits with code 1 but maintains no registry, so nothing is deregistered. -/
theorem health_wait_counterexample :
    (currentWaitUp false).1 = 1
  ∧ (1 : Nat) ≠ legacyMaxAttempts
  ∧ (currentWaitUp false).2.exitCode = none
  ∧ (midWaitUp (fun _ => false)).2.exitCode = none
  ∧ legacyOnExhaustion.deregistered = false := by
  refine ⟨rfl, by decide, rfl, rfl, rfl⟩

theorem waitFrom_all_false (probe : Nat → Bool) (a fuel : Nat)
    (h : ∀ i, a ≤ i → i < a + fuel → probe i = false) :
    waitFrom probe a fuel = (fuel, false) := by
  induction fuel generalizing a with
  | zero => rfl
  | succ n ih =>
    have hpa : probe a = false := h a le_rfl (by omega)
    have hrest : waitFrom probe (a + 1) n = (n, false) :=
      ih (a + 1) (fun i h1 h2 => h i (by omega) (by omega))
    simp [waitFrom, hpa, hrest]

/-- Claim C4, corrected.  The legacy launcher (`src/launcher.ts`) probes up
to 10 times at a 500 ms interval, stopping at the first healthy answer;
when all attempts fail, `main` kills the spawned backend and calls
`process.exit(1)`, performing no registry deregistration (that file
maintains no PID registry).  The intermediate launcher's `waitUp` runs the
same 10 × 500 ms loop and on exhaustion kills the backend and deregisters
the caller's pid, but does not exit the process.  The current launcher's
`waitUp` performs a single health check (whose transport `retryLink`
retries while `attempts <= 3` at 500 ms); on an unhealthy answer it kills
the backend and deregisters the caller's pid, and does not exit the
process. -/
theorem health_wait_behaviour (probe probe2 : Nat → Bool)
    (hfail : ∀ i, i < legacyMaxAttempts → probe i = false)
    (hok : probe2 0 = true) :
    waitForDbServer probe = (legacyMaxAttempts, false)
  ∧ legacyOnExhaustion = ⟨true, some 1, false⟩
  ∧ midWaitUp probe = (legacyMaxAttempts, ⟨true, none, true⟩)
  ∧ waitForDbServer probe2 = (1, true)
  ∧ (∀ h : Bool, (currentWaitUp h).1 = 1)
  ∧ currentWaitUp false = (1, ⟨true, none, true⟩)
  ∧ legacyIntervalMs = 500 ∧ legacyMaxAttempts = 10
  ∧ retryLinkAttemptBound = 3 ∧ retryLinkDelayMs = 500 := by
  have hW : waitForDbServer probe = (legacyMaxAttempts, false) :=
    waitFrom_all_false probe 0 legacyMaxAttempts (fun i _ h2 => hfail i (by omega))
  refine ⟨hW, rfl, ?_, ?_, ?_, rfl, rfl, rfl, rfl, rfl⟩
  · simp [midWaitUp, hW]
  · simp [waitForDbServer, legacyMaxAttempts, waitFrom, hok]
  · intro h
    cases h <;> rfl

theorem health_wait_behaviour_witness :
    waitForDbServer (fun _ => false) = (legacyMaxAttempts, false)
  ∧ waitForDbServer (fun _ => true) = (1, true) := by
  have h := health_wait_behaviour (fun _ => false) (fun _ => true) (fun i _ => rfl) rfl
  exact ⟨h.1, h.2.2.2.1⟩

/-- Claim C5: at startup, when no endpoint (socket) file exists the
launcher spawns a backend directly, issuing no reuse probe; when the file
exists, exactly one reuse probe is issued: a healthy answer means no
backend is spawned, no handle is owned, and the backend is not killed when
the worker exits; an unhealthy answer means the stale socket file is
deleted before a new backend is spawned. -/
theorem startup_reuse_or_spawn (healthy : Bool) :
    startDBServer false healthy = ⟨true, true, 0, false⟩
  ∧ startDBServer true true = ⟨false, false, 1, false⟩
  ∧ killsBackendOnWorkerExit (startDBServer true true) = false
  ∧ startDBServer true false = ⟨true, true, 1, true⟩
  ∧ killsBackendOnWorkerExit (startDBServer true false) = true := by
  cases healthy <;> exact ⟨rfl, rfl, rfl, rfl, rfl⟩

theorem startup_reuse_or_spawn_witness :
    startDBServer false true = ⟨true, true, 0, false⟩ :=
  (startup_reuse_or_spawn true).1

/-- Claim C8: the health probe is total — every probe outcome, transport
error included, is classified to a boolean — and it reports healthy
exactly when the delivered response is the literal "ok", which is
precisely what the backend's healthcheck handler returns. -/
theorem health_check_total_ok (o : ProbeOutcome) :
    (checkDBServerHealth o = true ↔ o = .response "ok")
  ∧ checkDBServerHealth (.response healthcheckHandler) = true
  ∧ checkDBServerHealth .transportError = false := by
  refine ⟨?_, rfl, rfl⟩
  cases o with
  | transportError => simp [checkDBServerHealth]
  | response r => simp [checkDBServerHealth]

theorem health_check_total_ok_witness :
    checkDBServerHealth (.response "ok") = true :=
  (health_check_total_ok (.response "ok")).1.mpr rfl

theorem runEvents_teardownRuns (tr : List LEvent) (s : LauncherState) :
    (runEvents s tr).teardownRuns = s.teardownRuns + countWorkerExit tr := by
  induction tr generalizing s with
  | nil => simp [runEvents, countWorkerExit]
  | cons e rest ih =>
    have hstep : runEvents s (e :: rest) = runEvents (stepEvent s e) rest := rfl
    rw [hstep, ih]
    cases e with
    | sigint => simp [stepEvent, countWorkerExit]
    | sigterm => simp [stepEvent, countWorkerExit]
    | workerExit => simp only [stepEvent, countWorkerExit]; omega

theorem runEvents_threw (tr : List LEvent) (s : LauncherState) :
    (runEvents s tr).threw = s.threw := by
  induction tr generalizing s with
  | nil => rfl
  | cons e rest ih =>
    have hstep : runEvents s (e :: rest) = runEvents (stepEvent s e) rest := rfl
    rw [hstep, ih]
    cases e <;> rfl

/-- Claim C9: over any event trace the current launcher can actually
observe — Node.js delivers a child process's exit event at most once, so
the trace contains at most one worker-exit event — the teardown sequence
runs at most once and no handler throws: the termination-signal handlers
only re-signal the worker (`ChildProcess.kill` on an exited process is a
no-op) and never run the teardown, so a second signal, or any event
arriving after cleanup, re-runs nothing. -/
theorem teardown_at_most_once (tr : List LEvent) (h : countWorkerExit tr ≤ 1) :
    (runEvents initLauncherState tr).teardownRuns ≤ 1
  ∧ (runEvents initLauncherState tr).threw = false := by
  constructor
  · rw [runEvents_teardownRuns]
    simpa [initLauncherState] using h
  · rw [runEvents_threw]
    rfl

theorem teardown_at_most_once_witness :
    (runEvents initLauncherState [.sigint, .workerExit, .sigterm, .sigint]).teardownRuns ≤ 1 :=
  (teardown_at_most_once [.sigint, .workerExit, .sigterm, .sigint] (by decide)).1

/-- Claim C10: writing a pid list and reading it back returns exactly that
list, in both generations of the registry code; every write stores the
object encoding `(pids: [...])`; and every add or remove that performs a
write leaves the backing file in the object format, so a legacy raw-array
file that is rewritten has been replaced by the object form. -/
theorem registry_roundtrip_object_format :
    (∀ ps : List Int, PIDListManager.read (PIDListManager.write ps) = .ok ps)
  ∧ (∀ ps : List Int, readPidList (writePidList (ps.map Json.num)) = .ok (ps.map Json.num))
  ∧ (∀ self : Int, ∀ c c' : FileContent,
      PIDListManager.addPid self c = .ok (c', true) → ∃ qs, c' = PIDListManager.write qs)
  ∧ (∀ self : Int, ∀ c : FileContent, ∀ out : PIDListManager.RemoveOut,
      PIDListManager.removePid self c = .ok out → out.content = PIDListManager.write out.pids)
  ∧ (∀ self : Int, ∀ c c' : FileContent,
      addPid self c = .ok (c', true) → ∃ qs, c' = writePidList qs)
  ∧ (∀ alive : Int → Bool, ∀ self : Int, ∀ c : FileContent, ∀ sock : Bool,
      ∀ out : RemoveResult,
      removePid alive self c sock = .ok out → out.content = writePidList out.pids) := by
  refine ⟨classRead_write, readPidList_write_nums, ?_, ?_, ?_, ?_⟩
  · intro self c c' h
    cases hr : PIDListManager.read c with
    | error e => rw [PIDListManager.addPid, hr] at h; cases h
    | ok pids =>
      rw [PIDListManager.addPid, hr] at h
      simp only [Except.map] at h
      by_cases hmem : self ∈ pids
      · simp [hmem] at h
      · simp [hmem] at h
        exact ⟨pids ++ [self], h.symm⟩
  · intro self c out h
    cases hr : PIDListManager.read c with
    | error e => rw [PIDListManager.removePid, hr] at h; cases h
    | ok pids =>
      rw [PIDListManager.removePid, hr] at h
      simp only [Except.map] at h
      cases h
      rfl
  · intro self c c' h
    cases hr : readPidList c with
    | error e => rw [addPid, hr] at h; cases h
    | ok pids =>
      rw [addPid, hr] at h
      simp only [Except.map] at h
      by_cases hany : pids.any (fun j => j.eqNum self) = true
      · simp [hany] at h
      · simp [hany] at h
        exact ⟨pids ++ [Json.num self], h.symm⟩
  · intro alive self c sock out h
    cases hr : readPidList c with
    | error e => rw [removePid, hr] at h; cases h
    | ok pids =>
      rw [removePid, hr] at h
      simp only [Except.map] at h
      cases h
      rfl

theorem registry_roundtrip_object_format_witness :
    PIDListManager.read (PIDListManager.write [12, 7]) = .ok [12, 7]
  ∧ ∃ qs, PIDListManager.write [1, 5] = PIDListManager.write qs :=
  ⟨registry_roundtrip_object_format.1 [12, 7],
   registry_roundtrip_object_format.2.2.1 5 (PIDListManager.write [1])
     (PIDListManager.write [1, 5]) rfl⟩
